import Mathlib

/-!
Verification development for the Cluster ARG-IMD repository.

The repository consists of three Python scripts (`main.py`, `scalp.py`,
`terra.py`) that classify sensor coordinate pairs into administrative
district polygons and aggregate the classified points.  This file gives a
shallow embedding of the classification and aggregation core of `main.py`
(whose relevant code `scalp.py` duplicates verbatim) and of `terra.py`,
and proves properties of that embedding.

Modelling conventions:
* latitude/longitude values are rationals (the scripts use Python floats;
  no claim under consideration depends on float rounding or NaN payloads —
  a missing/NaN cell is modelled as `Option.none` at the table level);
* a polygon is the list of its vertices; `polyContains` models the
  geometry primitive `shapely.geometry.Polygon.contains` used by all three
  scripts: it is true exactly when the point lies in the interior of the
  (simple) polygon, via the standard even-odd ray-crossing rule — a point
  lying on the boundary is NOT contained, matching shapely/GEOS `contains`,
  which requires an interior intersection;
* a pandas row access `row[c]` raises `KeyError c` exactly when `c` is not
  among the frame's columns, modelled by `seriesGet`; likewise a Python
  `dict` lookup of an absent key raises `KeyError`, modelled in `dictIncr`.
-/

/-- Kernel-computable addition on `ℚ` (the library's `Rat.add` is marked
irreducible, which blocks `decide` on concrete geometry; this version goes
through `Rat.divInt`, which does reduce).  Proven equal to `+` below. -/
def qadd (a b : ℚ) : ℚ := Rat.divInt (a.num * b.den + b.num * a.den) (a.den * b.den)

/-- Kernel-computable subtraction on `ℚ`; proven equal to `-` below. -/
def qsub (a b : ℚ) : ℚ := qadd a (-b)

/-- Kernel-computable multiplication on `ℚ`; proven equal to `*` below. -/
def qmul (a b : ℚ) : ℚ := Rat.divInt (a.num * b.num) (a.den * b.den)

/-- Kernel-computable division on `ℚ`; proven equal to `/` below. -/
def qdiv (a b : ℚ) : ℚ := Rat.divInt (a.num * b.den) (a.den * b.num)

theorem qadd_eq (a b : ℚ) : qadd a b = a + b := by
  have ha : (a.den : ℤ) ≠ 0 := Int.natCast_ne_zero.mpr a.den_nz
  have hb : (b.den : ℤ) ≠ 0 := Int.natCast_ne_zero.mpr b.den_nz
  rw [qadd]
  conv_rhs => rw [← Rat.num_divInt_den a, ← Rat.num_divInt_den b]
  rw [Rat.divInt_add_divInt _ _ ha hb]

theorem qsub_eq (a b : ℚ) : qsub a b = a - b := by
  rw [qsub, qadd_eq, sub_eq_add_neg]

theorem qmul_eq (a b : ℚ) : qmul a b = a * b := by
  rw [qmul]
  conv_rhs => rw [← Rat.num_divInt_den a, ← Rat.num_divInt_den b]
  rw [Rat.divInt_mul_divInt']

theorem qdiv_eq (a b : ℚ) : qdiv a b = a / b := by
  rw [qdiv, div_eq_mul_inv, Rat.inv_def']
  conv_rhs => rw [← Rat.num_divInt_den a]
  rw [Rat.divInt_mul_divInt']

/-- A planar point with rational coordinates, standing for a
`shapely.geometry.Point` (constructed in the scripts as `Point(lon, lat)`). -/
structure Pt where
  x : ℚ
  y : ℚ
deriving DecidableEq

/-- A polygon, as the list of its vertices in order (the last vertex is
implicitly joined back to the first). -/
abbrev Polygon := List Pt

/-- The edge list of a polygon: consecutive vertex pairs, wrapping around. -/
def edges : Polygon → List (Pt × Pt)
  | [] => []
  | p :: ps => List.zip (p :: ps) (ps ++ [p])

/-- Whether `v` lies weakly between `a` and `b` (in either order). -/
def between (a b v : ℚ) : Bool :=
  (decide (a ≤ v) && decide (v ≤ b)) || (decide (b ≤ v) && decide (v ≤ a))

/-- Whether point `p` lies on the closed segment from `a` to `b`
(collinear and within the bounding box). -/
def onSegment (a b p : Pt) : Bool :=
  decide (qmul (qsub b.x a.x) (qsub p.y a.y) = qmul (qsub b.y a.y) (qsub p.x a.x)) &&
  between a.x b.x p.x && between a.y b.y p.y

/-- Whether point `p` lies on the boundary of the polygon. -/
def onBoundary (poly : Polygon) (p : Pt) : Bool :=
  (edges poly).any fun e => onSegment e.1 e.2 p

/-- Whether the horizontal ray from `p` towards `+x` crosses the edge `e`,
with the usual half-open convention making the crossing count well defined:
the edge is crossed when its endpoints lie on opposite sides of the ray's
height and the edge meets that height strictly to the right of `p`. -/
def crossesRay (p : Pt) (e : Pt × Pt) : Bool :=
  (decide (e.1.y > p.y) != decide (e.2.y > p.y)) &&
  decide (p.x < qadd e.1.x (qdiv (qmul (qsub p.y e.1.y) (qsub e.2.x e.1.x)) (qsub e.2.y e.1.y)))

/-- Model of `shapely.geometry.Polygon.contains` for a point argument:
true exactly when the point lies strictly in the interior of the simple
polygon.  A point on the boundary is not contained (GEOS `contains`
requires the intersection to meet the interior, which is why shapely also
offers `covers`; the scripts call `contains`). -/
def polyContains (poly : Polygon) (p : Pt) : Bool :=
  !onBoundary poly p && ((edges poly).countP (fun e => crossesRay p e)) % 2 == 1

/-- A named district region, as read from `up_districts.geojson`: its name
attribute (from the `district`/`DISTRICT` column) and its geometry. -/
structure District where
  name : String
  geometry : Polygon

/-- Python `str.title()` on a list of characters: the first letter of each
maximal alphabetic run is upper-cased and the rest are lower-cased; the
boolean argument records whether the previous character was alphabetic. -/
def titleAux : Bool → List Char → List Char
  | _, [] => []
  | prevAlpha, c :: cs =>
    (if c.isAlpha then (if prevAlpha then c.toLower else c.toUpper) else c)
      :: titleAux c.isAlpha cs

/-- Python `str.title()`, as called in `main.py` line 30 / line 58. -/
def titleCase (s : String) : String := ⟨titleAux false s.data⟩

namespace MainPy

/-- The district-name normalization of `main.py` line 30:
`districts[district_name_col] = districts[district_name_col].str.title()`,
applied once when the store is built. -/
def titleStore (districts : List District) : List District :=
  districts.map fun d => ⟨titleCase d.name, d.geometry⟩

/-- `get_district_name` of `main.py` lines 52–59 (identical in `scalp.py`
lines 48–55): reject out-of-range coordinates, then scan the district rows
in order and return the title-cased name of the first district whose
geometry contains `Point(lon, lat)`; otherwise the out-of-region sentinel. -/
def get_district_name (districts : List District) (lat lon : ℚ) : String :=
  if ¬(-90 ≤ lat ∧ lat ≤ 90 ∧ -180 ≤ lon ∧ lon ≤ 180) then
    "Invalid Coordinates"
  else
    match districts.find? (fun d => polyContains d.geometry ⟨lon, lat⟩) with
    | some d => titleCase d.name
    | none => "District out of UP"

end MainPy

namespace TerraPy

/-- `get_district_name` of `terra.py` lines 19–24: no coordinate validity
check; scan the district rows in order and return the stored name of the
first district whose geometry contains `Point(lon, lat)`, else `None`. -/
def get_district_name (districts : List District) (lat lon : ℚ) : Option String :=
  (districts.find? fun d => polyContains d.geometry ⟨lon, lat⟩).map District.name

end TerraPy

/-- A fatal Python-level failure: either the explicit `exit(1)` taken by
`main.py` when a required CSV column is absent, or an uncaught `KeyError`
(carrying the missing key), which also terminates the process with a
non-zero exit but prints a traceback rather than a diagnostic. -/
inductive Fatal where
  | missingColumns
  | keyError (key : String)
deriving DecidableEq

deriving instance DecidableEq for Except

/-- One row of the readings CSV, as the pandas `Series` produced by
`iterrows`: a cell per column name; `none` models a NaN/missing value. -/
abbrev Row := String → Option ℚ

/-- The readings table `data = pd.read_csv('data.csv')`: its column schema
and its rows. -/
structure Table where
  columns : List String
  rows : List Row

/-- Pandas row indexing `row[c]`: raises `KeyError c` when `c` is not a
column of the frame, otherwise yields the cell (possibly NaN). -/
def seriesGet (cols : List String) (row : Row) (c : String) : Except Fatal (Option ℚ) :=
  if cols.contains c then .ok (row c) else .error (.keyError c)

namespace TerraPy

/-- The per-district counter table: a Python `dict` keyed by district name,
as an insertion-ordered association list of `(name, (green, red))`. -/
abbrev Counts := List (String × Nat × Nat)

/-- Python `d[k] = v` on a dict: overwrite in place when the key exists
(keeping its position), otherwise append the new binding. -/
def dictSet (cs : Counts) (k : String) (v : Nat × Nat) : Counts :=
  if cs.any (fun kv => kv.1 == k) then
    cs.map fun kv => if kv.1 = k then (k, v) else kv
  else
    cs ++ [(k, v)]

/-- Python `d[k]` read on a dict (the first binding of the key, when any). -/
def dictGet (cs : Counts) (k : String) : Option (Nat × Nat) :=
  (cs.find? fun kv => kv.1 == k).map fun kv => kv.2

/-- The counter initialization of `terra.py` line 16:
`counts = {district: {'Green': 0, 'Red': 0} for district in districts[col]}`. -/
def counts (districts : List District) : Counts :=
  districts.foldl (fun cs d => dictSet cs d.name (0, 0)) []

/-- Python `counts[district][...] += 1`: raises `KeyError district` when the
name is not a key, otherwise replaces the inner counter pair by `f` of it. -/
def dictIncr (f : Nat × Nat → Nat × Nat) (cs : Counts) (k : String) : Except Fatal Counts :=
  match dictGet cs k with
  | none => .error (.keyError k)
  | some v => .ok (dictSet cs k (f v))

/-- The body of one iteration of a counting loop of `terra.py` (lines 27–31
for the green/`Lat1,Long1` loop, lines 34–38 for the red/`Lat2,Long2` loop;
the two loops are textually identical up to the column pair and the counter
incremented, abstracted here as `latCol`, `lonCol` and `f`): evaluate
`pd.notna(row[latCol]) and pd.notna(row[lonCol])` with Python's
short-circuit (so `row[lonCol]` is only read when the first cell is
present), classify, and if a district is found increment its counter. -/
def loopStep (cols : List String) (districts : List District) (latCol lonCol : String)
    (f : Nat × Nat → Nat × Nat) (cs : Counts) (row : Row) : Except Fatal Counts := do
  let latCell ← seriesGet cols row latCol
  match latCell with
  | none => pure cs
  | some lat => do
    let lonCell ← seriesGet cols row lonCol
    match lonCell with
    | none => pure cs
    | some lon =>
      match get_district_name districts lat lon with
      | none => pure cs
      | some district => dictIncr f cs district

/-- The increment performed by `counts[district]['Green'] += 1`. -/
def incGreen : Nat × Nat → Nat × Nat := fun v => (v.1 + 1, v.2)

/-- The increment performed by `counts[district]['Red'] += 1`. -/
def incRed : Nat × Nat → Nat × Nat := fun v => (v.1, v.2 + 1)

/-- The classification key a row contributes under a column pair, ignoring
column-existence errors: the district of the row's `(latCol, lonCol)` pair
when both cells are present, else nothing. -/
def rowKey (districts : List District) (latCol lonCol : String) (row : Row) : Option String :=
  match row latCol, row lonCol with
  | some lat, some lon => get_district_name districts lat lon
  | _, _ => none

/-- The whole counting phase of `terra.py` (lines 16–38) followed by the
export of `output_df` (lines 41–44): initialize `counts` from the boundary
file, run the green loop over all rows, then the red loop over all rows;
the resulting association list is exactly the row list of the exported
spreadsheet `district_marker_counts.xlsx`, in dict insertion order.  An
`error` value is an uncaught exception: the process dies and no
spreadsheet is written. -/
def run (districts : List District) (t : Table) : Except Fatal Counts := do
  let c1 ← t.rows.foldlM (loopStep t.columns districts "Lat1" "Long1" incGreen) (counts districts)
  t.rows.foldlM (loopStep t.columns districts "Lat2" "Long2" incRed) c1

end TerraPy

namespace MainPy

/-- The required CSV schema of `main.py` line 15. -/
def required_cols : List String := ["Lat1", "Long1", "Lat2", "Long2"]

/-- The validation of `main.py` lines 16–18:
`all(col in data.columns for col in required_cols)`. -/
def colsOk (cols : List String) : Bool :=
  required_cols.all fun c => cols.contains c

/-- A circle marker added to the folium map, with the data that the script
computes per classified point (location and the district in the popup; the
color/source tag is implied by which feature-group list holds it). -/
structure Marker where
  lat : ℚ
  lon : ℚ
  district : String
deriving DecidableEq

/-- The three folium feature groups of `main.py` lines 40–42, as the lists
of markers added to each. -/
structure FeatureGroups where
  districtsFg : List Marker
  imdFg : List Marker
  rahatFg : List Marker
deriving DecidableEq

/-- The body of one iteration of the IMD marker loop (`main.py` lines
62–76): read the `Lat1`/`Long1` cells with Python's short-circuit `and`,
classify, and unless the result is one of the two sentinel strings add the
marker to the IMD group and the districts group. -/
def imdStep (cols : List String) (districts : List District)
    (st : FeatureGroups) (row : Row) : Except Fatal FeatureGroups := do
  let latCell ← seriesGet cols row "Lat1"
  match latCell with
  | none => pure st
  | some lat => do
    let lonCell ← seriesGet cols row "Long1"
    match lonCell with
    | none => pure st
    | some lon =>
      let district := get_district_name districts lat lon
      if district = "District out of UP" ∨ district = "Invalid Coordinates" then
        pure st
      else
        pure ⟨st.districtsFg ++ [⟨lat, lon, district⟩], st.imdFg ++ [⟨lat, lon, district⟩],
              st.rahatFg⟩

/-- The body of one iteration of the Rahat marker loop (`main.py` lines
79–93), the same with the `Lat2`/`Long2` pair and the Rahat group. -/
def rahatStep (cols : List String) (districts : List District)
    (st : FeatureGroups) (row : Row) : Except Fatal FeatureGroups := do
  let latCell ← seriesGet cols row "Lat2"
  match latCell with
  | none => pure st
  | some lat => do
    let lonCell ← seriesGet cols row "Long2"
    match lonCell with
    | none => pure st
    | some lon =>
      let district := get_district_name districts lat lon
      if district = "District out of UP" ∨ district = "Invalid Coordinates" then
        pure st
      else
        pure ⟨st.districtsFg ++ [⟨lat, lon, district⟩], st.imdFg,
              st.rahatFg ++ [⟨lat, lon, district⟩]⟩

/-- The classification-and-aggregation core of `main.py` (identical in
`scalp.py` up to which feature groups collect the markers): validate the
CSV schema once (lines 15–18, `exit(1)` on failure, before any row is
read), title-case the district names once (line 30), then run the IMD loop
and the Rahat loop over all rows.  The `error .missingColumns` value is
the aborted run: no marker has been produced and no map is saved. -/
def run (districtsRaw : List District) (t : Table) : Except Fatal FeatureGroups :=
  if ¬colsOk t.columns then .error .missingColumns
  else
    let districts := titleStore districtsRaw
    do
      let st1 ← t.rows.foldlM (imdStep t.columns districts) ⟨[], [], []⟩
      t.rows.foldlM (rahatStep t.columns districts) st1

end MainPy

-- concrete sanity checks of the geometry model
example : polyContains [⟨0, 0⟩, ⟨4, 0⟩, ⟨4, 4⟩, ⟨0, 4⟩] ⟨2, 2⟩ = true := by decide
example : polyContains [⟨0, 0⟩, ⟨4, 0⟩, ⟨4, 4⟩, ⟨0, 4⟩] ⟨2, 0⟩ = false := by decide
example : onBoundary [⟨0, 0⟩, ⟨4, 0⟩, ⟨4, 4⟩, ⟨0, 4⟩] ⟨2, 0⟩ = true := by decide
example : polyContains [⟨0, 0⟩, ⟨4, 0⟩, ⟨4, 4⟩, ⟨0, 4⟩] ⟨5, 2⟩ = false := by decide
example : titleCase "lucknow" = "Lucknow" := by decide
example : MainPy.get_district_name [⟨"agra", [⟨0, 0⟩, ⟨4, 0⟩, ⟨4, 4⟩, ⟨0, 4⟩]⟩] 2 2 = "Agra" := by decide
example : TerraPy.get_district_name [⟨"agra", [⟨0, 0⟩, ⟨4, 0⟩, ⟨4, 4⟩, ⟨0, 4⟩]⟩] 95 2 = none := by decide
example :
    TerraPy.run [⟨"agra", [⟨0, 0⟩, ⟨4, 0⟩, ⟨4, 4⟩, ⟨0, 4⟩]⟩]
      ⟨["Lat1", "Long1", "Lat2", "Long2"],
       [fun c => if c = "Lat1" then some 2 else if c = "Long1" then some 2 else none]⟩
      = .ok [("agra", 1, 0)] := by decide
example :
    MainPy.run [⟨"agra", [⟨0, 0⟩, ⟨4, 0⟩, ⟨4, 4⟩, ⟨0, 4⟩]⟩]
      ⟨["Lat1", "Long1"], []⟩ = .error .missingColumns := by decide

theorem seriesGet_ok {cols : List String} {c : String} (h : cols.contains c = true)
    (row : Row) : seriesGet cols row c = .ok (row c) := by
  rw [seriesGet, if_pos h]

theorem seriesGet_err {cols : List String} {c : String} (h : cols.contains c = false)
    (row : Row) : seriesGet cols row c = .error (.keyError c) := by
  rw [seriesGet, if_neg]
  rw [h]
  exact Bool.false_ne_true

theorem seriesGet_congr {cols : List String} {c : String} {row rowB : Row}
    (h : row c = rowB c) : seriesGet cols row c = seriesGet cols rowB c := by
  rw [seriesGet, seriesGet, h]

namespace TerraPy

theorem keyUnique {cs : Counts} (h : (cs.map Prod.fst).Nodup) :
    ∀ a ∈ cs, ∀ b ∈ cs, a.1 = b.1 → a = b := by
  induction cs with
  | nil => simp
  | cons hd tl ih =>
    simp only [List.map_cons, List.nodup_cons] at h
    intro a ha b hb hab
    rcases List.mem_cons.mp ha with rfl | ha' <;> rcases List.mem_cons.mp hb with rfl | hb'
    · rfl
    · exact absurd (hab ▸ List.mem_map_of_mem Prod.fst hb') h.1
    · exact absurd (hab ▸ List.mem_map_of_mem Prod.fst ha') h.1
    · exact ih h.2 a ha' b hb' hab

theorem dictSet_keys_of_mem {cs : Counts} {k : String} (h : k ∈ cs.map Prod.fst)
    (v : Nat × Nat) : (dictSet cs k v).map Prod.fst = cs.map Prod.fst := by
  obtain ⟨kv, hkv, hfst⟩ := List.mem_map.mp h
  have hany : cs.any (fun kv => kv.1 == k) = true :=
    List.any_eq_true.mpr ⟨kv, hkv, by simp [hfst]⟩
  rw [dictSet, if_pos hany, List.map_map]
  exact List.map_congr_left fun a _ => by by_cases ha : a.1 = k <;> simp [ha]

theorem dictSet_keys_of_not_mem {cs : Counts} {k : String} (h : ¬k ∈ cs.map Prod.fst)
    (v : Nat × Nat) : (dictSet cs k v).map Prod.fst = cs.map Prod.fst ++ [k] := by
  have hany : cs.any (fun kv => kv.1 == k) = false := by
    rw [List.any_eq_false]
    intro kv hkv
    simp only [beq_iff_eq]
    exact fun he => h (he ▸ List.mem_map_of_mem Prod.fst hkv)
  rw [dictSet, if_neg (by simp [hany]), List.map_append]
  rfl

theorem mem_dictSet_keys {cs : Counts} {k n : String} (v : Nat × Nat) :
    n ∈ (dictSet cs k v).map Prod.fst ↔ n ∈ cs.map Prod.fst ∨ n = k := by
  by_cases h : k ∈ cs.map Prod.fst
  · rw [dictSet_keys_of_mem h]
    constructor
    · exact Or.inl
    · rintro (hn | rfl)
      · exact hn
      · exact h
  · rw [dictSet_keys_of_not_mem h, List.mem_append, List.mem_singleton]

theorem dictSet_nodup_keys {cs : Counts} {k : String}
    (h : (cs.map Prod.fst).Nodup) (v : Nat × Nat) :
    ((dictSet cs k v).map Prod.fst).Nodup := by
  by_cases hk : k ∈ cs.map Prod.fst
  · rw [dictSet_keys_of_mem hk]
    exact h
  · rw [dictSet_keys_of_not_mem hk]
    exact ((List.perm_append_singleton k (cs.map Prod.fst)).nodup_iff).mpr
      (List.nodup_cons.mpr ⟨hk, h⟩)

theorem dictSet_values {cs : Counts} {k : String} {v : Nat × Nat}
    (h : ∀ kv ∈ cs, kv.2 = v) : ∀ kv ∈ dictSet cs k v, kv.2 = v := by
  intro kv hkv
  rw [dictSet] at hkv
  by_cases hany : cs.any (fun kv => kv.1 == k) = true
  · rw [if_pos hany] at hkv
    obtain ⟨a, ha, rfl⟩ := List.mem_map.mp hkv
    by_cases hak : a.1 = k <;> simp [hak, h a ha]
  · rw [if_neg hany] at hkv
    rcases List.mem_append.mp hkv with ha | ha
    · exact h kv ha
    · rw [List.mem_singleton.mp ha]

theorem counts_keys (districts : List District) :
    ∀ n, n ∈ (counts districts).map Prod.fst ↔ n ∈ districts.map District.name := by
  suffices H : ∀ (ds : List District) (cs : Counts) (n : String),
      n ∈ ((ds.foldl (fun cs d => dictSet cs d.name (0, 0)) cs).map Prod.fst) ↔
        n ∈ cs.map Prod.fst ∨ n ∈ ds.map District.name by
    intro n
    rw [counts, H]
    simp
  intro ds
  induction ds with
  | nil => simp
  | cons d tl ih =>
    intro cs n
    rw [List.foldl_cons, ih, mem_dictSet_keys]
    simp only [List.map_cons, List.mem_cons]
    tauto

theorem counts_nodup_keys (districts : List District) :
    ((counts districts).map Prod.fst).Nodup := by
  suffices H : ∀ (ds : List District) (cs : Counts), (cs.map Prod.fst).Nodup →
      ((ds.foldl (fun cs d => dictSet cs d.name (0, 0)) cs).map Prod.fst).Nodup by
    exact H districts [] (by simp)
  intro ds
  induction ds with
  | nil => exact fun cs h => h
  | cons d tl ih => exact fun cs h => ih _ (dictSet_nodup_keys h _)

theorem counts_values (districts : List District) :
    ∀ kv ∈ counts districts, kv.2 = (0, 0) := by
  suffices H : ∀ (ds : List District) (cs : Counts), (∀ kv ∈ cs, kv.2 = (0, 0)) →
      ∀ kv ∈ ds.foldl (fun cs d => dictSet cs d.name (0, 0)) cs, kv.2 = (0, 0) by
    exact H districts [] (by simp)
  intro ds
  induction ds with
  | nil => exact fun cs h => h
  | cons d tl ih => exact fun cs h => ih _ (dictSet_values h)

theorem mem_counts_of_name {districts : List District} {n : String}
    (h : n ∈ districts.map District.name) : (n, (0, 0)) ∈ counts districts := by
  obtain ⟨kv, hkv, hfst⟩ := List.mem_map.mp ((counts_keys districts n).mpr h)
  have hv := counts_values districts kv hkv
  have : kv = (n, (0, 0)) := by
    obtain ⟨k1, k2⟩ := kv
    simp only at hfst hv
    rw [hfst, hv]
  exact this ▸ hkv

/-- Pointwise form of a successful increment: the entry at the key gets its
counter pair transformed, every other entry is untouched. -/
def incAt (f : Nat × Nat → Nat × Nat) (k : String) :
    String × Nat × Nat → String × Nat × Nat :=
  fun kv => if kv.1 = k then (kv.1, f kv.2) else kv

theorem incAt_keys (cs : Counts) (f : Nat × Nat → Nat × Nat) (k : String) :
    (cs.map (incAt f k)).map Prod.fst = cs.map Prod.fst := by
  rw [List.map_map]
  exact List.map_congr_left fun a _ => by by_cases h : a.1 = k <;> simp [incAt, h]

theorem find?_key {cs : Counts} {k : String} (h : k ∈ cs.map Prod.fst) :
    ∃ kv, cs.find? (fun kv => kv.1 == k) = some kv ∧ kv.1 = k ∧ kv ∈ cs := by
  induction cs with
  | nil => simp at h
  | cons hd tl ih =>
    by_cases hk : hd.1 = k
    · exact ⟨hd, List.find?_cons_of_pos _ (by simp [hk]), hk, List.mem_cons_self hd tl⟩
    · simp only [List.map_cons, List.mem_cons] at h
      rcases h with h | h
      · exact absurd h.symm hk
      · obtain ⟨kv, hfind, hfst, hmem⟩ := ih h
        refine ⟨kv, ?_, hfst, List.mem_cons_of_mem _ hmem⟩
        rw [List.find?_cons_of_neg _ (by simp [hk])]
        exact hfind

theorem dictIncr_ok {cs : Counts} {k : String} (hnd : (cs.map Prod.fst).Nodup)
    (h : k ∈ cs.map Prod.fst) (f : Nat × Nat → Nat × Nat) :
    dictIncr f cs k = .ok (cs.map (incAt f k)) := by
  obtain ⟨kv0, hfind, hfst, hmem⟩ := find?_key h
  have hany : cs.any (fun kv => kv.1 == k) = true :=
    List.any_eq_true.mpr ⟨kv0, hmem, by simp [hfst]⟩
  rw [dictIncr, dictGet, hfind]
  simp only [Option.map_some']
  rw [dictSet, if_pos hany]
  congr 1
  refine List.map_congr_left fun a ha => ?_
  by_cases hak : a.1 = k
  · have : a = kv0 := keyUnique hnd a ha kv0 hmem (by rw [hak, hfst])
    subst this
    simp [incAt, hak]
  · simp [incAt, hak]

theorem ok_bind {ε α β : Type} (x : α) (k : α → Except ε β) :
    (Except.ok x >>= k) = k x := rfl

theorem rowKey_name {districts : List District} {latCol lonCol : String} {row : Row}
    {k : String} (h : rowKey districts latCol lonCol row = some k) :
    k ∈ districts.map District.name := by
  rw [rowKey] at h
  cases hlat : row latCol with
  | none => rw [hlat] at h; exact absurd h (by simp)
  | some lat =>
    cases hlon : row lonCol with
    | none => rw [hlat, hlon] at h; exact absurd h (by simp)
    | some lon =>
      rw [hlat, hlon] at h
      unfold get_district_name at h
      obtain ⟨d, hd, hdn⟩ := Option.map_eq_some'.mp h
      exact hdn ▸ List.mem_map_of_mem District.name (List.mem_of_find?_eq_some hd)

theorem loopStep_eq {cols : List String} {latCol lonCol : String}
    (h1 : cols.contains latCol = true) (h2 : cols.contains lonCol = true)
    (districts : List District) (f : Nat × Nat → Nat × Nat) (cs : Counts) (row : Row) :
    loopStep cols districts latCol lonCol f cs row =
      match rowKey districts latCol lonCol row with
      | none => .ok cs
      | some k => dictIncr f cs k := by
  cases hlat : row latCol with
  | none =>
    simp only [loopStep, seriesGet_ok h1 row, seriesGet_ok h2 row, hlat, ok_bind, rowKey]
    rfl
  | some lat =>
    cases hlon : row lonCol with
    | none =>
      simp only [loopStep, seriesGet_ok h1 row, seriesGet_ok h2 row, hlat, hlon, ok_bind,
        rowKey]
      rfl
    | some lon =>
      cases hd : get_district_name districts lat lon with
      | none =>
        simp only [loopStep, seriesGet_ok h1 row, seriesGet_ok h2 row, hlat, hlon, hd,
          ok_bind, rowKey]
        rfl
      | some k =>
        simp only [loopStep, seriesGet_ok h1 row, seriesGet_ok h2 row, hlat, hlon, hd,
          ok_bind, rowKey]

theorem loopFold_ok {cols : List String} {latCol lonCol : String}
    (h1 : cols.contains latCol = true) (h2 : cols.contains lonCol = true)
    (districts : List District) (f : Nat × Nat → Nat × Nat) :
    ∀ (rows : List Row) (cs : Counts), (cs.map Prod.fst).Nodup →
      (∀ d ∈ districts, d.name ∈ cs.map Prod.fst) →
      rows.foldlM (loopStep cols districts latCol lonCol f) cs =
        .ok (cs.map fun kv =>
          (kv.1,
           f^[rows.countP fun row => rowKey districts latCol lonCol row == some kv.1] kv.2)) := by
  intro rows
  induction rows with
  | nil =>
    intro cs _ _
    simp only [List.foldlM_nil, List.countP_nil, Function.iterate_zero, id_eq]
    have hid : (fun kv : String × Nat × Nat => (kv.1, kv.2)) = id := rfl
    rw [hid, List.map_id]
    rfl
  | cons row rest ih =>
    intro cs hnd hcov
    cases hk : rowKey districts latCol lonCol row with
    | none =>
      have hstep : loopStep cols districts latCol lonCol f cs row = .ok cs := by
        rw [loopStep_eq h1 h2, hk]
      rw [List.foldlM_cons, hstep, ok_bind, ih cs hnd hcov]
      congr 1
      refine List.map_congr_left fun kv _ => ?_
      have hbeq : (rowKey districts latCol lonCol row == some kv.1) = false := by
        simp [hk]
      rw [List.countP_cons, hbeq]
      simp
    | some k =>
      have hkmem : k ∈ cs.map Prod.fst := by
        obtain ⟨d, hd, hdn⟩ := List.mem_map.mp (rowKey_name hk)
        exact hdn ▸ hcov d hd
      have hstep : loopStep cols districts latCol lonCol f cs row = dictIncr f cs k := by
        rw [loopStep_eq h1 h2, hk]
      have hnd' : ((cs.map (incAt f k)).map Prod.fst).Nodup := by
        rw [incAt_keys]; exact hnd
      have hcov' : ∀ d ∈ districts, d.name ∈ (cs.map (incAt f k)).map Prod.fst := by
        rw [incAt_keys]; exact hcov
      rw [List.foldlM_cons, hstep, dictIncr_ok hnd hkmem f, ok_bind, ih _ hnd' hcov']
      congr 1
      rw [List.map_map]
      refine List.map_congr_left fun kv _ => ?_
      simp only [Function.comp_apply, incAt]
      by_cases hkvk : kv.1 = k
      · have hbeq : (rowKey districts latCol lonCol row == some kv.1) = true := by
          simp [hk, hkvk]
        rw [if_pos hkvk, List.countP_cons, hbeq]
        simp [Function.iterate_succ_apply]
      · have hbeq : (rowKey districts latCol lonCol row == some kv.1) = false := by
          simp only [hk, beq_iff_eq, Option.some_inj]
          exact decide_eq_false fun he => hkvk he.symm
        rw [if_neg hkvk, List.countP_cons, hbeq]
        simp

theorem loopFold_err_lat {cols : List String} {latCol : String}
    (h1 : cols.contains latCol = false) (lonCol : String)
    (districts : List District) (f : Nat × Nat → Nat × Nat)
    (rows : List Row) (cs : Counts) :
    rows.foldlM (loopStep cols districts latCol lonCol f) cs =
      match rows with
      | [] => .ok cs
      | _ :: _ => .error (.keyError latCol) := by
  cases rows with
  | nil => rfl
  | cons row rest =>
    rw [List.foldlM_cons]
    have : loopStep cols districts latCol lonCol f cs row = .error (.keyError latCol) := by
      simp only [loopStep, seriesGet_err h1 row]
      rfl
    rw [this]
    rfl

theorem loopFold_err_lon {cols : List String} {latCol lonCol : String}
    (h1 : cols.contains latCol = true) (h2 : cols.contains lonCol = false)
    (districts : List District) (f : Nat × Nat → Nat × Nat) :
    ∀ (rows : List Row) (cs : Counts),
      rows.foldlM (loopStep cols districts latCol lonCol f) cs =
        if rows.any (fun row => (row latCol).isSome) then .error (.keyError lonCol)
        else .ok cs := by
  intro rows
  induction rows with
  | nil => intro cs; rfl
  | cons row rest ih =>
    intro cs
    rw [List.foldlM_cons]
    cases hlat : row latCol with
    | none =>
      have hstep : loopStep cols districts latCol lonCol f cs row = .ok cs := by
        simp only [loopStep, seriesGet_ok h1 row, hlat, ok_bind]
        rfl
      rw [hstep, ok_bind, ih cs]
      simp [hlat]
    | some lat =>
      have hstep : loopStep cols districts latCol lonCol f cs row =
          .error (.keyError lonCol) := by
        simp only [loopStep, seriesGet_ok h1 row, seriesGet_err h2 row, hlat, ok_bind]
        rfl
      rw [hstep]
      have : (row :: rest).any (fun row => (row latCol).isSome) = true := by
        simp [hlat]
      rw [this, if_pos rfl]
      rfl

theorem err_bind {ε α β : Type} (e : ε) (k : α → Except ε β) :
    (Except.error e >>= k) = .error e := rfl

theorem perm_any {α : Type} {l1 l2 : List α} (h : l1.Perm l2) (p : α → Bool) :
    l1.any p = l2.any p := by
  induction h with
  | nil => rfl
  | cons x _ ih => simp [List.any_cons, ih]
  | swap x y l => simp [List.any_cons, Bool.or_left_comm]
  | trans _ _ ih1 ih2 => rw [ih1, ih2]

theorem loopFold_perm {cols : List String} (latCol lonCol : String)
    (districts : List District) (f : Nat × Nat → Nat × Nat) {rows1 rows2 : List Row}
    (hperm : rows1.Perm rows2) (cs : Counts) (hnd : (cs.map Prod.fst).Nodup)
    (hcov : ∀ d ∈ districts, d.name ∈ cs.map Prod.fst) :
    rows1.foldlM (loopStep cols districts latCol lonCol f) cs =
      rows2.foldlM (loopStep cols districts latCol lonCol f) cs := by
  cases h1 : cols.contains latCol with
  | false =>
    rw [loopFold_err_lat h1, loopFold_err_lat h1]
    cases hr1 : rows1 with
    | nil =>
      rw [hr1] at hperm
      rw [← hperm.nil_eq]
    | cons a l =>
      rw [hr1] at hperm
      cases hr2 : rows2 with
      | nil =>
        rw [hr2] at hperm
        exact absurd hperm.eq_nil (by simp)
      | cons b m => rfl
  | true =>
    cases h2 : cols.contains lonCol with
    | false =>
      rw [loopFold_err_lon h1 h2, loopFold_err_lon h1 h2, perm_any hperm]
    | true =>
      rw [loopFold_ok h1 h2 districts f rows1 cs hnd hcov,
        loopFold_ok h1 h2 districts f rows2 cs hnd hcov]
      congr 1
      exact List.map_congr_left fun kv _ => by rw [hperm.countP_eq]

theorem loopFold_keys {cols : List String} {latCol lonCol : String}
    {districts : List District} {f : Nat × Nat → Nat × Nat} {rows : List Row}
    {cs cs' : Counts} (hnd : (cs.map Prod.fst).Nodup)
    (hcov : ∀ d ∈ districts, d.name ∈ cs.map Prod.fst)
    (h : rows.foldlM (loopStep cols districts latCol lonCol f) cs = .ok cs') :
    cs'.map Prod.fst = cs.map Prod.fst := by
  cases h1 : cols.contains latCol with
  | false =>
    rw [loopFold_err_lat h1] at h
    cases rows with
    | nil => cases h; rfl
    | cons a l => exact absurd h (by simp)
  | true =>
    cases h2 : cols.contains lonCol with
    | false =>
      rw [loopFold_err_lon h1 h2] at h
      by_cases hany : rows.any (fun row => (row latCol).isSome) = true
      · rw [if_pos hany] at h
        exact absurd h (by simp)
      · rw [if_neg hany] at h
        cases h
        rfl
    | true =>
      rw [loopFold_ok h1 h2 districts f rows cs hnd hcov] at h
      cases h
      rw [List.map_map]
      exact List.map_congr_left fun kv _ => rfl

theorem counts_cov (districts : List District) :
    ∀ d ∈ districts, d.name ∈ (counts districts).map Prod.fst := fun d hd =>
  (counts_keys districts d.name).mpr (List.mem_map_of_mem District.name hd)

theorem run_perm (districts : List District) {t1 t2 : Table}
    (hcols : t1.columns = t2.columns) (hrows : t1.rows.Perm t2.rows) :
    run districts t1 = run districts t2 := by
  rw [run, run]
  have hnd := counts_nodup_keys districts
  have hcov := counts_cov districts
  have hgreen :
      t1.rows.foldlM (loopStep t1.columns districts "Lat1" "Long1" incGreen)
        (counts districts) =
      t2.rows.foldlM (loopStep t2.columns districts "Lat1" "Long1" incGreen)
        (counts districts) := by
    rw [hcols]
    exact loopFold_perm _ _ districts incGreen hrows _ hnd hcov
  rw [hgreen]
  cases hg : t2.rows.foldlM (loopStep t2.columns districts "Lat1" "Long1" incGreen)
      (counts districts) with
  | error e => rw [err_bind, err_bind]
  | ok c1 =>
    rw [ok_bind, ok_bind]
    have hkeys : c1.map Prod.fst = (counts districts).map Prod.fst := by
      refine loopFold_keys ?_ ?_ hg
      · exact hnd
      · exact hcov
    have hnd1 : (c1.map Prod.fst).Nodup := by rw [hkeys]; exact hnd
    have hcov1 : ∀ d ∈ districts, d.name ∈ c1.map Prod.fst := by
      rw [hkeys]; exact hcov
    rw [hcols]
    exact loopFold_perm _ _ districts incRed hrows c1 hnd1 hcov1

theorem run_ok {districts : List District} {t : Table}
    (h1 : t.columns.contains "Lat1" = true) (h2 : t.columns.contains "Long1" = true)
    (h3 : t.columns.contains "Lat2" = true) (h4 : t.columns.contains "Long2" = true) :
    ∃ cs, run districts t = .ok cs := by
  have hnd := counts_nodup_keys districts
  have hcov := counts_cov districts
  have hg := loopFold_ok h1 h2 districts incGreen t.rows (counts districts) hnd hcov
  have hkeys := loopFold_keys hnd hcov hg
  have hnd1 : ((List.map (fun kv =>
      (kv.1, incGreen^[t.rows.countP
        fun row => rowKey districts "Lat1" "Long1" row == some kv.1] kv.2))
      (counts districts)).map Prod.fst).Nodup := by
    rw [hkeys]; exact hnd
  have hcov1 : ∀ d ∈ districts, d.name ∈ (List.map (fun kv =>
      (kv.1, incGreen^[t.rows.countP
        fun row => rowKey districts "Lat1" "Long1" row == some kv.1] kv.2))
      (counts districts)).map Prod.fst := by
    rw [hkeys]; exact hcov
  have hr := loopFold_ok h3 h4 districts incRed t.rows _ hnd1 hcov1
  rw [run, hg, ok_bind]
  exact ⟨_, hr⟩

theorem loopFold_zero {cols : List String} {latCol lonCol : String}
    {districts : List District} {f : Nat × Nat → Nat × Nat} {rows : List Row}
    {cs cs' : Counts} {d : String} (hnd : (cs.map Prod.fst).Nodup)
    (hcov : ∀ d ∈ districts, d.name ∈ cs.map Prod.fst)
    (h : rows.foldlM (loopStep cols districts latCol lonCol f) cs = .ok cs')
    (hmem : (d, (0, 0)) ∈ cs)
    (hcnt : ∀ row ∈ rows, rowKey districts latCol lonCol row ≠ some d) :
    (d, (0, 0)) ∈ cs' := by
  cases h1 : cols.contains latCol with
  | false =>
    rw [loopFold_err_lat h1] at h
    cases rows with
    | nil => cases h; exact hmem
    | cons a l => exact absurd h (by simp)
  | true =>
    cases h2 : cols.contains lonCol with
    | false =>
      rw [loopFold_err_lon h1 h2] at h
      by_cases hany : rows.any (fun row => (row latCol).isSome) = true
      · rw [if_pos hany] at h
        exact absurd h (by simp)
      · rw [if_neg hany] at h
        cases h
        exact hmem
    | true =>
      rw [loopFold_ok h1 h2 districts f rows cs hnd hcov] at h
      cases h
      have hzero : rows.countP
          (fun row => rowKey districts latCol lonCol row == some d) = 0 := by
        rw [List.countP_eq_zero]
        intro row hrow
        simp only [beq_iff_eq]
        exact fun he => hcnt row hrow (by simpa using he)
      have := List.mem_map_of_mem (fun kv : String × Nat × Nat =>
        (kv.1, f^[rows.countP
          fun row => rowKey districts latCol lonCol row == some kv.1] kv.2)) hmem
      simpa [hzero] using this

end TerraPy

theorem find?_first {α : Type} (p : α → Bool) :
    ∀ (l : List α) (i : Nat) (hi : i < l.length),
      p (l.get ⟨i, hi⟩) = true →
      (∀ (j : Nat) (hj : j < l.length), j < i → p (l.get ⟨j, hj⟩) = false) →
      l.find? p = some (l.get ⟨i, hi⟩) := by
  intro l
  induction l with
  | nil => intro i hi; exact absurd hi (by simp)
  | cons a tl ih =>
    intro i hi hp hmin
    cases i with
    | zero => exact List.find?_cons_of_pos _ hp
    | succ j =>
      have ha : p a = false := hmin 0 (by omega) (by omega)
      rw [List.find?_cons_of_neg _ (by rw [ha]; exact Bool.false_ne_true)]
      exact ih j (Nat.lt_of_succ_lt_succ hi) hp
        fun k hk hkj => hmin (k + 1) (by omega) (by omega)

theorem toNat_ofNat_valid {n : Nat} (h : n.isValidChar) : (Char.ofNat n).toNat = n := by
  rw [Char.ofNat, dif_pos h]
  rfl

theorem toUpper_of_lower {c : Char} (h : c.toNat ≥ 97 ∧ c.toNat ≤ 122) :
    c.toUpper = Char.ofNat (c.toNat - 32) := by
  unfold Char.toUpper
  rw [if_pos h]

theorem toUpper_of_other {c : Char} (h : ¬(c.toNat ≥ 97 ∧ c.toNat ≤ 122)) :
    c.toUpper = c := by
  unfold Char.toUpper
  rw [if_neg h]

theorem toLower_of_upper {c : Char} (h : c.toNat ≥ 65 ∧ c.toNat ≤ 90) :
    c.toLower = Char.ofNat (c.toNat + 32) := by
  unfold Char.toLower
  rw [if_pos h]

theorem toLower_of_other {c : Char} (h : ¬(c.toNat ≥ 65 ∧ c.toNat ≤ 90)) :
    c.toLower = c := by
  unfold Char.toLower
  rw [if_neg h]

theorem isUpper_toNat (c : Char) :
    c.isUpper = (decide (65 ≤ c.toNat) && decide (c.toNat ≤ 90)) := rfl

theorem isLower_toNat (c : Char) :
    c.isLower = (decide (97 ≤ c.toNat) && decide (c.toNat ≤ 122)) := rfl

theorem toUpper_toUpper (c : Char) : c.toUpper.toUpper = c.toUpper := by
  by_cases h : c.toNat ≥ 97 ∧ c.toNat ≤ 122
  · rw [toUpper_of_lower h]
    have hval : (Char.ofNat (c.toNat - 32)).toNat = c.toNat - 32 :=
      toNat_ofNat_valid (Or.inl (by omega))
    apply toUpper_of_other
    rw [hval]
    omega
  · rw [toUpper_of_other h, toUpper_of_other h]

theorem toLower_toLower (c : Char) : c.toLower.toLower = c.toLower := by
  by_cases h : c.toNat ≥ 65 ∧ c.toNat ≤ 90
  · rw [toLower_of_upper h]
    have hval : (Char.ofNat (c.toNat + 32)).toNat = c.toNat + 32 :=
      toNat_ofNat_valid (Or.inl (by omega))
    apply toLower_of_other
    rw [hval]
    omega
  · rw [toLower_of_other h, toLower_of_other h]

theorem isAlpha_toUpper (c : Char) : c.toUpper.isAlpha = c.isAlpha := by
  by_cases h : c.toNat ≥ 97 ∧ c.toNat ≤ 122
  · rw [toUpper_of_lower h]
    have hval : (Char.ofNat (c.toNat - 32)).toNat = c.toNat - 32 :=
      toNat_ofNat_valid (Or.inl (by omega))
    have hU : (Char.ofNat (c.toNat - 32)).isUpper = true := by
      rw [isUpper_toNat, hval]
      simp only [Bool.and_eq_true, decide_eq_true_eq]
      omega
    have hL : c.isLower = true := by
      rw [isLower_toNat]
      simp only [Bool.and_eq_true, decide_eq_true_eq]
      omega
    rw [Char.isAlpha, Char.isAlpha, hU, hL]
    simp
  · rw [toUpper_of_other h]

theorem isAlpha_toLower (c : Char) : c.toLower.isAlpha = c.isAlpha := by
  by_cases h : c.toNat ≥ 65 ∧ c.toNat ≤ 90
  · rw [toLower_of_upper h]
    have hval : (Char.ofNat (c.toNat + 32)).toNat = c.toNat + 32 :=
      toNat_ofNat_valid (Or.inl (by omega))
    have hL : (Char.ofNat (c.toNat + 32)).isLower = true := by
      rw [isLower_toNat, hval]
      simp only [Bool.and_eq_true, decide_eq_true_eq]
      omega
    have hU : c.isUpper = true := by
      rw [isUpper_toNat]
      simp only [Bool.and_eq_true, decide_eq_true_eq]
      omega
    rw [Char.isAlpha, Char.isAlpha, hL, hU]
    simp
  · rw [toLower_of_other h]

theorem titleAux_idem : ∀ (l : List Char) (b : Bool),
    titleAux b (titleAux b l) = titleAux b l := by
  intro l
  induction l with
  | nil => intro b; rfl
  | cons c cs ih =>
    intro b
    by_cases hc : c.isAlpha = true
    · cases b with
      | false =>
        simp only [titleAux, hc, if_true, Bool.false_eq_true, if_false, isAlpha_toUpper,
          toUpper_toUpper, ih]
      | true =>
        simp only [titleAux, hc, if_true, isAlpha_toLower, toLower_toLower, ih]
    · simp only [titleAux, hc, Bool.false_eq_true, if_false, ih]

/-- Python `str.title()` is idempotent: re-title-casing an already
title-cased string changes nothing. -/
theorem titleCase_idem (s : String) : titleCase (titleCase s) = titleCase s :=
  congrArg String.mk (titleAux_idem s.data false)

deriving instance DecidableEq for District

/-- Shared concrete fixtures for witnesses and counterexamples: a 4×4
square at the origin, an overlapping square shifted by 2, and a square
sitting at latitudes 93–97 (outside the valid latitude range). -/
def demoSquare : Polygon := [⟨0, 0⟩, ⟨4, 0⟩, ⟨4, 4⟩, ⟨0, 4⟩]

/-- Overlapping companion square of `demoSquare`. -/
def demoSquare2 : Polygon := [⟨2, 2⟩, ⟨6, 2⟩, ⟨6, 6⟩, ⟨2, 6⟩]

/-- A polygon whose points all have latitude above 90. -/
def ghostSquare : Polygon := [⟨8, 93⟩, ⟨12, 93⟩, ⟨12, 97⟩, ⟨8, 97⟩]

/-- The full required readings schema. -/
def req4 : List String := ["Lat1", "Long1", "Lat2", "Long2"]

/-- A reading row whose source-A pair is valid but inside no demo region. -/
def rowFar : Row := fun c =>
  if c = "Lat1" then some 50 else if c = "Long1" then some 50 else none

/-- A reading row whose source-A latitude is out of range. -/
def rowInvalidA : Row := fun c =>
  if c = "Lat1" then some 95 else if c = "Long1" then some 0 else none

/-- A reading row whose source-A pair lies inside `demoSquare`. -/
def rowIn : Row := fun c =>
  if c = "Lat1" then some 2 else if c = "Long1" then some 2 else none

/-- A reading row with the source-A pair missing and a source-B pair
inside `demoSquare`. -/
def rowOnlyB : Row := fun c =>
  if c = "Lat2" then some 2 else if c = "Long2" then some 2 else none

/-- A reading row with `Lat1` present but `Long1` missing (NaN). -/
def rowHalfA : Row := fun c =>
  if c = "Lat1" then some 2 else none

/-- Helper shared by several claims: over valid coordinates, `main.py`'s
classifier returns the title-cased name of the first district whose
geometry strictly contains the point. -/
theorem main_get_of_find {districts : List District} {lat lon : ℚ} {d : District}
    (h1 : -90 ≤ lat) (h2 : lat ≤ 90) (h3 : -180 ≤ lon) (h4 : lon ≤ 180)
    (hfind : districts.find? (fun d => polyContains d.geometry ⟨lon, lat⟩) = some d) :
    MainPy.get_district_name districts lat lon = titleCase d.name := by
  rw [MainPy.get_district_name, if_neg (not_not_intro ⟨h1, h2, h3, h4⟩), hfind]

/-- A terra.py counting-loop iteration reads a row only through its two
source columns. -/
theorem TerraPy.loopStep_congr {cols : List String} {latCol lonCol : String}
    (districts : List District) (f : Nat × Nat → Nat × Nat) (cs : TerraPy.Counts)
    {row rowB : Row} (hA : row latCol = rowB latCol) (hB : row lonCol = rowB lonCol) :
    TerraPy.loopStep cols districts latCol lonCol f cs row =
      TerraPy.loopStep cols districts latCol lonCol f cs rowB := by
  simp only [TerraPy.loopStep, seriesGet_congr hA, seriesGet_congr hB]

/-- A main.py Rahat-loop iteration reads a row only through `Lat2`/`Long2`. -/
theorem MainPy.rahatStep_congr {cols : List String} {districts : List District}
    {st : MainPy.FeatureGroups} {row rowB : Row}
    (hA : row "Lat2" = rowB "Lat2") (hB : row "Long2" = rowB "Long2") :
    MainPy.rahatStep cols districts st row = MainPy.rahatStep cols districts st rowB := by
  simp only [MainPy.rahatStep, seriesGet_congr hA, seriesGet_congr hB]

/-- Claim C1 (amended): in `main.py`/`scalp.py`, `get_district_name` on a
coordinate pair with latitude outside [-90, 90] or longitude outside
[-180, 180] returns the sentinel "Invalid Coordinates" for every district
store, without consulting containment.  (The original claim also covered
`terra.py`'s `get_district_name`, which performs no validity check at all
— see the counterexample.) -/
theorem c1_theorem (districts : List District) (lat lon : ℚ)
    (h : lat < -90 ∨ 90 < lat ∨ lon < -180 ∨ 180 < lon) :
    MainPy.get_district_name districts lat lon = "Invalid Coordinates" := by
  have hg : ¬(-90 ≤ lat ∧ lat ≤ 90 ∧ -180 ≤ lon ∧ lon ≤ 180) := by
    rintro ⟨ha, hb, hc, hd⟩
    rcases h with h | h | h | h <;> linarith
  rw [MainPy.get_district_name, if_pos hg]

/-- Witness for C1: latitude 95 is classified "Invalid Coordinates". -/
theorem c1_witness : MainPy.get_district_name [] 95 0 = "Invalid Coordinates" :=
  c1_theorem [] 95 0 (Or.inr (Or.inl (by decide)))

/-- Counterexample to C1 as stated: `terra.py`'s `get_district_name` has no
validity check — at latitude 95 (invalid) it consults containment and
returns a region name, not an invalid-coordinate result. -/
theorem c1_counterexample :
    TerraPy.get_district_name [⟨"Ghost", ghostSquare⟩] 95 10 = some "Ghost" ∧
      (90 : ℚ) < 95 := by decide

/-- Claim C2 (amended): in `main.py`/`scalp.py` the required-column check
runs once, before any row is read: whenever the readings table lacks a
required column, the run aborts with the missing-columns diagnostic and
`exit(1)` no matter what rows the table holds, and no marker or map output
is produced.  (`terra.py` performs no such check — see the
counterexample.) -/
theorem c2_theorem (districts : List District) (t : Table)
    (h : MainPy.colsOk t.columns = false) :
    MainPy.run districts t = .error .missingColumns := by
  rw [MainPy.run, if_pos]
  rw [h]
  exact Bool.false_ne_true

/-- Witness for C2: a table whose only column is "Station" is rejected. -/
theorem c2_witness : MainPy.run [] ⟨["Station"], []⟩ = .error .missingColumns :=
  c2_theorem [] ⟨["Station"], []⟩ (by decide)

/-- Counterexample to C2 as stated: on a readings table missing all four
required columns, `terra.py` does not abort — with no rows it runs to
completion and exports the all-zero spreadsheet. -/
theorem c2_counterexample :
    MainPy.colsOk ["Station"] = false ∧
      TerraPy.run [⟨"Lucknow", demoSquare⟩] ⟨["Station"], []⟩ =
        .ok [("Lucknow", (0, 0))] := by decide

/-- Claim C3 (amended): for every valid coordinate pair lying strictly
inside some region's polygon (in the sense of the `contains` predicate of
the geometry library, which is interior-only), the classifier returns the
title-cased name of the first such region in store order.  A point lying
exactly on a boundary is NOT contained by shapely's `contains` — see the
counterexample. -/
theorem c3_theorem (districts : List District) (lat lon : ℚ) (d : District)
    (h1 : -90 ≤ lat) (h2 : lat ≤ 90) (h3 : -180 ≤ lon) (h4 : lon ≤ 180)
    (hfind : districts.find? (fun d => polyContains d.geometry ⟨lon, lat⟩) = some d) :
    MainPy.get_district_name districts lat lon = titleCase d.name :=
  main_get_of_find h1 h2 h3 h4 hfind

/-- Witness for C3: the point (lat 2, lon 2) inside the demo square is
classified into it. -/
theorem c3_witness : MainPy.get_district_name [⟨"agra", demoSquare⟩] 2 2 = titleCase "agra" :=
  c3_theorem [⟨"agra", demoSquare⟩] 2 2 ⟨"agra", demoSquare⟩
    (by decide) (by decide) (by decide) (by decide) (by decide)

/-- Counterexample to C3 as stated: the point (lat 0, lon 2) lies exactly
on the boundary of the region's polygon, yet it is classified
"District out of UP", not into the region: shapely `contains` excludes the
boundary. -/
theorem c3_counterexample :
    onBoundary demoSquare ⟨2, 0⟩ = true ∧
      MainPy.get_district_name [⟨"agra", demoSquare⟩] 0 2 = "District out of UP" := by decide

/-- Claim C4 (amended): title-casing is idempotent and, in `main.py`/
`scalp.py`, the store is title-cased at construction AND the name is
title-cased again per query (line 58), so the result still carries the
store's normalized name; `terra.py` never title-cases — a classified
result there carries the raw stored name (see the counterexample). -/
theorem c4_theorem :
    (∀ s : String, titleCase (titleCase s) = titleCase s) ∧
    (∀ (districts : List District) (lat lon : ℚ) (d : District),
      -90 ≤ lat → lat ≤ 90 → -180 ≤ lon → lon ≤ 180 →
      (MainPy.titleStore districts).find?
          (fun d => polyContains d.geometry ⟨lon, lat⟩) = some d →
      MainPy.get_district_name (MainPy.titleStore districts) lat lon = d.name) ∧
    (∀ (districts : List District) (lat lon : ℚ) (d : District),
      districts.find? (fun d => polyContains d.geometry ⟨lon, lat⟩) = some d →
      TerraPy.get_district_name districts lat lon = some d.name) := by
  refine ⟨titleCase_idem, ?_, ?_⟩
  · intro districts lat lon d h1 h2 h3 h4 hfind
    rw [main_get_of_find h1 h2 h3 h4 hfind]
    have hd := List.mem_of_find?_eq_some hfind
    obtain ⟨raw, hraw, rfl⟩ := List.mem_map.mp hd
    exact titleCase_idem raw.name
  · intro districts lat lon d hfind
    unfold TerraPy.get_district_name
    rw [hfind]
    rfl

/-- Witness for C4: over a normalized store the query yields the store's
normalized name; terra.py yields the raw stored name. -/
theorem c4_witness :
    MainPy.get_district_name (MainPy.titleStore [⟨"lucknow", demoSquare⟩]) 2 2 = "Lucknow" ∧
      TerraPy.get_district_name [⟨"lucknow", demoSquare⟩] 2 2 = some "lucknow" := by
  constructor
  · exact c4_theorem.2.1 [⟨"lucknow", demoSquare⟩] 2 2 ⟨"Lucknow", demoSquare⟩
      (by decide) (by decide) (by decide) (by decide) (by decide)
  · exact c4_theorem.2.2 [⟨"lucknow", demoSquare⟩] 2 2 ⟨"lucknow", demoSquare⟩ (by decide)

/-- Counterexample to C4 as stated: in `terra.py` a classified result
carries the raw boundary-file name "lucknow", which differs from the
title-cased normalization "Lucknow" — so the result does not carry a
title-case-normalized name, and no title-casing was applied at store
construction there. -/
theorem c4_counterexample :
    TerraPy.get_district_name [⟨"lucknow", demoSquare⟩] 2 2 = some "lucknow" ∧
      titleCase "lucknow" = "Lucknow" ∧ ("lucknow" : String) ≠ "Lucknow" := by decide

/-- Claim C5 (confirmed): a classification event whose result is the
out-of-region or invalid-coordinate sentinel (`main.py`/`scalp.py`) or
`None` (`terra.py`) leaves the aggregation state exactly as it was: no
marker is appended to any feature group, no counter is incremented, and no
exception is raised. -/
theorem c5_theorem :
    (∀ (cols : List String) (districts : List District) (st : MainPy.FeatureGroups)
        (row : Row) (lat lon : ℚ),
      cols.contains "Lat1" = true → cols.contains "Long1" = true →
      row "Lat1" = some lat → row "Long1" = some lon →
      (MainPy.get_district_name districts lat lon = "District out of UP" ∨
        MainPy.get_district_name districts lat lon = "Invalid Coordinates") →
      MainPy.imdStep cols districts st row = .ok st) ∧
    (∀ (cols : List String) (districts : List District) (st : MainPy.FeatureGroups)
        (row : Row) (lat lon : ℚ),
      cols.contains "Lat2" = true → cols.contains "Long2" = true →
      row "Lat2" = some lat → row "Long2" = some lon →
      (MainPy.get_district_name districts lat lon = "District out of UP" ∨
        MainPy.get_district_name districts lat lon = "Invalid Coordinates") →
      MainPy.rahatStep cols districts st row = .ok st) ∧
    (∀ (cols : List String) (districts : List District) (latCol lonCol : String)
        (f : Nat × Nat → Nat × Nat) (cs : TerraPy.Counts) (row : Row) (lat lon : ℚ),
      cols.contains latCol = true → cols.contains lonCol = true →
      row latCol = some lat → row lonCol = some lon →
      TerraPy.get_district_name districts lat lon = none →
      TerraPy.loopStep cols districts latCol lonCol f cs row = .ok cs) := by
  refine ⟨?_, ?_, ?_⟩
  · intro cols districts st row lat lon h1 h2 hlat hlon hsent
    simp only [MainPy.imdStep, seriesGet_ok h1 row, seriesGet_ok h2 row, hlat, hlon, TerraPy.ok_bind]
    rw [if_pos hsent]
    rfl
  · intro cols districts st row lat lon h1 h2 hlat hlon hsent
    simp only [MainPy.rahatStep, seriesGet_ok h1 row, seriesGet_ok h2 row, hlat, hlon,
      TerraPy.ok_bind]
    rw [if_pos hsent]
    rfl
  · intro cols districts latCol lonCol f cs row lat lon h1 h2 hlat hlon hnone
    rw [TerraPy.loopStep_eq h1 h2]
    have hk : TerraPy.rowKey districts latCol lonCol row = none := by
      rw [TerraPy.rowKey, hlat, hlon]
      exact hnone
    rw [hk]

/-- Witness for C5: a row with invalid source-A coordinates leaves both
the main.py feature groups and the terra.py counters untouched. -/
theorem c5_witness :
    MainPy.imdStep req4 [] ⟨[], [], []⟩ rowInvalidA = .ok ⟨[], [], []⟩ ∧
      TerraPy.loopStep req4 [] "Lat1" "Long1" TerraPy.incGreen [] rowInvalidA = .ok [] := by
  constructor
  · exact c5_theorem.1 req4 [] ⟨[], [], []⟩ rowInvalidA 95 0
      (by decide) (by decide) (by decide) (by decide) (Or.inr (by decide))
  · exact c5_theorem.2.2 req4 [] "Lat1" "Long1" TerraPy.incGreen [] rowInvalidA 95 0
      (by decide) (by decide) (by decide) (by decide) (by decide)

/-- Claim C6 (confirmed): the per-region per-source count aggregate of the
spreadsheet script is invariant under permutation of the reading rows —
for tables with the same schema, permuted rows produce the identical run
result. -/
theorem c6_theorem (districts : List District) (t1 t2 : Table)
    (hcols : t1.columns = t2.columns) (hrows : t1.rows.Perm t2.rows) :
    TerraPy.run districts t1 = TerraPy.run districts t2 :=
  TerraPy.run_perm districts hcols hrows

/-- Witness for C6: swapping two concrete reading rows leaves the exported
counts unchanged. -/
theorem c6_witness :
    TerraPy.run [⟨"agra", demoSquare⟩] ⟨req4, [rowIn, rowFar]⟩ =
      TerraPy.run [⟨"agra", demoSquare⟩] ⟨req4, [rowFar, rowIn]⟩ :=
  c6_theorem [⟨"agra", demoSquare⟩] ⟨req4, [rowIn, rowFar]⟩ ⟨req4, [rowFar, rowIn]⟩
    rfl (List.Perm.swap rowFar rowIn [])

/-- Claim C7 (confirmed): a row whose source-A pair is missing (NaN in
`Lat1`, or in `Long1` after a present `Lat1`) contributes no source-A
event — the counting step returns the state unchanged — and the source-B
step reads a row only through its `Lat2`/`Long2` cells, so source-B
processing is unaffected by anything in the source-A columns; the same
holds for the marker loops of `main.py`. -/
theorem c7_theorem :
    (∀ (cols : List String) (districts : List District) (cs : TerraPy.Counts) (row : Row),
      cols.contains "Lat1" = true → row "Lat1" = none →
      TerraPy.loopStep cols districts "Lat1" "Long1" TerraPy.incGreen cs row = .ok cs) ∧
    (∀ (cols : List String) (districts : List District) (cs : TerraPy.Counts) (row : Row)
        (lat : ℚ),
      cols.contains "Lat1" = true → cols.contains "Long1" = true →
      row "Lat1" = some lat → row "Long1" = none →
      TerraPy.loopStep cols districts "Lat1" "Long1" TerraPy.incGreen cs row = .ok cs) ∧
    (∀ (cols : List String) (districts : List District) (cs : TerraPy.Counts)
        (row rowB : Row),
      row "Lat2" = rowB "Lat2" → row "Long2" = rowB "Long2" →
      TerraPy.loopStep cols districts "Lat2" "Long2" TerraPy.incRed cs row =
        TerraPy.loopStep cols districts "Lat2" "Long2" TerraPy.incRed cs rowB) ∧
    (∀ (cols : List String) (districts : List District) (st : MainPy.FeatureGroups)
        (row : Row),
      cols.contains "Lat1" = true → row "Lat1" = none →
      MainPy.imdStep cols districts st row = .ok st) ∧
    (∀ (cols : List String) (districts : List District) (st : MainPy.FeatureGroups)
        (row : Row) (lat : ℚ),
      cols.contains "Lat1" = true → cols.contains "Long1" = true →
      row "Lat1" = some lat → row "Long1" = none →
      MainPy.imdStep cols districts st row = .ok st) ∧
    (∀ (cols : List String) (districts : List District) (st : MainPy.FeatureGroups)
        (row rowB : Row),
      row "Lat2" = rowB "Lat2" → row "Long2" = rowB "Long2" →
      MainPy.rahatStep cols districts st row = MainPy.rahatStep cols districts st rowB) := by
  refine ⟨?_, ?_, ?_, ?_, ?_, ?_⟩
  · intro cols districts cs row h1 hlat
    simp only [TerraPy.loopStep, seriesGet_ok h1 row, hlat, TerraPy.ok_bind]
    rfl
  · intro cols districts cs row lat h1 h2 hlat hlon
    simp only [TerraPy.loopStep, seriesGet_ok h1 row, seriesGet_ok h2 row, hlat, hlon,
      TerraPy.ok_bind]
    rfl
  · intro cols districts cs row rowB hA hB
    exact TerraPy.loopStep_congr districts TerraPy.incRed cs hA hB
  · intro cols districts st row h1 hlat
    simp only [MainPy.imdStep, seriesGet_ok h1 row, hlat, TerraPy.ok_bind]
    rfl
  · intro cols districts st row lat h1 h2 hlat hlon
    simp only [MainPy.imdStep, seriesGet_ok h1 row, seriesGet_ok h2 row, hlat, hlon,
      TerraPy.ok_bind]
    rfl
  · intro cols districts st row rowB hA hB
    exact MainPy.rahatStep_congr hA hB

/-- Witness for C7: a row with no source-A pair contributes no green
event, a main.py row with `Lat1` present but `Long1` missing contributes
no IMD marker, and the red step treats a missing-A row exactly like any
row with the same `Lat2`/`Long2` cells. -/
theorem c7_witness :
    TerraPy.loopStep req4 [] "Lat1" "Long1" TerraPy.incGreen [] rowOnlyB = .ok [] ∧
      MainPy.imdStep req4 [] ⟨[], [], []⟩ rowHalfA = .ok ⟨[], [], []⟩ ∧
      TerraPy.loopStep req4 [] "Lat2" "Long2" TerraPy.incRed [] rowFar =
        TerraPy.loopStep req4 [] "Lat2" "Long2" TerraPy.incRed [] rowIn := by
  refine ⟨?_, ?_, ?_⟩
  · exact c7_theorem.1 req4 [] [] rowOnlyB (by decide) (by decide)
  · exact c7_theorem.2.2.2.2.1 req4 [] ⟨[], [], []⟩ rowHalfA 2
      (by decide) (by decide) (by decide) (by decide)
  · exact c7_theorem.2.2.1 req4 [] [] rowFar rowIn (by decide) (by decide)

/-- Claim C8 (confirmed): when a valid coordinate pair is contained in the
polygons of two or more regions, the classifier performs a linear scan in
store order and returns the first containing region's name; no later
containing region is returned. -/
theorem c8_theorem (districts : List District) (lat lon : ℚ) (i j : Nat)
    (hij : i < j) (hj : j < districts.length)
    (h1 : -90 ≤ lat) (h2 : lat ≤ 90) (h3 : -180 ≤ lon) (h4 : lon ≤ 180)
    (hi : polyContains (districts.get ⟨i, Nat.lt_trans hij hj⟩).geometry ⟨lon, lat⟩ = true)
    (hjc : polyContains (districts.get ⟨j, hj⟩).geometry ⟨lon, lat⟩ = true)
    (hmin : ∀ (k : Nat) (hk : k < districts.length), k < i →
      polyContains (districts.get ⟨k, hk⟩).geometry ⟨lon, lat⟩ = false) :
    MainPy.get_district_name districts lat lon =
      titleCase (districts.get ⟨i, Nat.lt_trans hij hj⟩).name := by
  rw [MainPy.get_district_name, if_neg (not_not_intro ⟨h1, h2, h3, h4⟩)]
  rw [find?_first _ districts i (Nat.lt_trans hij hj) hi hmin]

/-- Witness for C8: the point (3, 3) lies inside both overlapping demo
squares; classification returns the first region in store order. -/
theorem c8_witness :
    MainPy.get_district_name [⟨"first", demoSquare⟩, ⟨"second", demoSquare2⟩] 3 3 =
      "First" := by
  have h := c8_theorem [⟨"first", demoSquare⟩, ⟨"second", demoSquare2⟩] 3 3 0 1
    (by decide) (by decide) (by decide) (by decide) (by decide) (by decide)
    (by decide) (by decide) (fun k hk hki => absurd hki (by omega))
  exact h.trans (by decide)

/-- Claim C9 (confirmed): on any successful run of the spreadsheet script,
the exported count table has exactly one row per distinct region name of
the boundary file (its key list is duplicate-free and covers exactly the
boundary names), and a region into which no reading row classifies —
under either source column pair — appears with Green and Red counts both
zero. -/
theorem c9_theorem (districts : List District) (t : Table) (cs : TerraPy.Counts)
    (h : TerraPy.run districts t = .ok cs) :
    ((cs.map Prod.fst).Nodup ∧
      ∀ n, n ∈ cs.map Prod.fst ↔ n ∈ districts.map District.name) ∧
    ∀ d, d ∈ districts.map District.name →
      (∀ row ∈ t.rows, TerraPy.rowKey districts "Lat1" "Long1" row ≠ some d) →
      (∀ row ∈ t.rows, TerraPy.rowKey districts "Lat2" "Long2" row ≠ some d) →
      (d, (0, 0)) ∈ cs := by
  have hnd := TerraPy.counts_nodup_keys districts
  have hcov := TerraPy.counts_cov districts
  rw [TerraPy.run] at h
  cases hg : t.rows.foldlM
      (TerraPy.loopStep t.columns districts "Lat1" "Long1" TerraPy.incGreen)
      (TerraPy.counts districts) with
  | error e =>
    rw [hg, TerraPy.err_bind] at h
    exact absurd h (by simp)
  | ok c1 =>
    rw [hg, TerraPy.ok_bind] at h
    have hk1 : c1.map Prod.fst = (TerraPy.counts districts).map Prod.fst :=
      TerraPy.loopFold_keys hnd hcov hg
    have hnd1 : (c1.map Prod.fst).Nodup := by rw [hk1]; exact hnd
    have hcov1 : ∀ d ∈ districts, d.name ∈ c1.map Prod.fst := by
      rw [hk1]; exact hcov
    have hk2 : cs.map Prod.fst = c1.map Prod.fst :=
      TerraPy.loopFold_keys hnd1 hcov1 h
    constructor
    · constructor
      · rw [hk2, hk1]
        exact hnd
      · intro n
        rw [hk2, hk1]
        exact TerraPy.counts_keys districts n
    · intro d hd hg0 hr0
      have hm0 : (d, (0, 0)) ∈ TerraPy.counts districts := TerraPy.mem_counts_of_name hd
      have hm1 : (d, (0, 0)) ∈ c1 := TerraPy.loopFold_zero hnd hcov hg hm0 hg0
      exact TerraPy.loopFold_zero hnd1 hcov1 h hm1 hr0

/-- Witness for C9: a run whose single reading row classifies into no
region still exports the region with a (0, 0) row, and the key list is
duplicate-free. -/
theorem c9_witness :
    (([("agra", (0, 0))] : TerraPy.Counts).map Prod.fst).Nodup ∧
      ("agra", (0, 0)) ∈ ([("agra", (0, 0))] : TerraPy.Counts) := by
  have h := c9_theorem [⟨"agra", demoSquare⟩] ⟨req4, [rowFar]⟩ [("agra", (0, 0))]
    (by decide)
  exact ⟨h.1.1, h.2 "agra" (by decide) (by decide) (by decide)⟩

/-- Claim C10 (confirmed): the counter lookup `counts[district]` in
`terra.py` can never raise a missing-key error: every non-`None` name
returned by `get_district_name` is a name from the boundary file's
district column and is therefore a key of the `counts` dictionary built
from that same column; consequently, whenever the four required reading
columns are present the whole run succeeds. -/
theorem c10_theorem :
    (∀ (districts : List District) (lat lon : ℚ) (n : String),
      TerraPy.get_district_name districts lat lon = some n →
      n ∈ (TerraPy.counts districts).map Prod.fst) ∧
    (∀ (districts : List District) (t : Table),
      t.columns.contains "Lat1" = true → t.columns.contains "Long1" = true →
      t.columns.contains "Lat2" = true → t.columns.contains "Long2" = true →
      ∃ cs, TerraPy.run districts t = .ok cs) := by
  constructor
  · intro districts lat lon n h
    unfold TerraPy.get_district_name at h
    obtain ⟨d, hd, hdn⟩ := Option.map_eq_some'.mp h
    exact (TerraPy.counts_keys districts n).mpr
      (hdn ▸ List.mem_map_of_mem District.name (List.mem_of_find?_eq_some hd))
  · intro districts t h1 h2 h3 h4
    exact TerraPy.run_ok h1 h2 h3 h4

/-- Witness for C10: a classified name is a key of the counter dictionary,
and a well-formed table processes to completion. -/
theorem c10_witness :
    "agra" ∈ (TerraPy.counts [⟨"agra", demoSquare⟩]).map Prod.fst ∧
      ∃ cs, TerraPy.run [⟨"agra", demoSquare⟩] ⟨req4, [rowIn]⟩ = .ok cs := by
  constructor
  · exact c10_theorem.1 [⟨"agra", demoSquare⟩] 2 2 "agra" (by decide)
  · exact c10_theorem.2 [⟨"agra", demoSquare⟩] ⟨req4, [rowIn]⟩
      (by decide) (by decide) (by decide) (by decide)
